import Mathlib

set_option maxRecDepth 10000

/-!
Verification development for the dataset profiling and cleaning pipeline:
the CSV parser and column profiler (`UploadView.tsx` / the app's
`handleDataLoaded`), the retry gateway and audit/clean services
(`services/geminiService.ts`), and the cleaning orchestration state of
`CleanView.tsx`.  Each definition is a shallow embedding of the
corresponding source function; JavaScript primitives (`Number`,
`JSON.parse`, object spread, truthiness) are modelled on the fragment the
source exercises and are documented at their definition.
-/

/-- Values a parsed cell can hold: the CSV parser stores either a number or
a string, sample generators can also produce booleans, and a row missing a
column yields JavaScript `undefined`. -/
inductive CellValue where
  | num (q : Rat)
  | str (s : String)
  | bool (b : Bool)
  | jsUndefined
deriving DecidableEq, Repr

/-- Rows are JavaScript objects keyed by header: an ordered association
list with at most one entry per key (property assignment overwrites). -/
abbrev Row := List (String × CellValue)

/-- Inferred column type, from `ColumnStats.type` in `types.ts`. -/
inductive ColType where
  | numeric
  | categorical
  | date
  | unknown
deriving DecidableEq, Repr

/-- Per-column statistics as computed by the app's `handleDataLoaded`
profiler (the optional min/max/avg/outlier fields of `types.ts` are never
set on that code path and are omitted). -/
structure ColumnStats where
  column : String
  type : ColType
  uniqueValues : Nat
  missingValues : Nat
deriving DecidableEq, Repr

/-- A dataset snapshot, the fields of `types.ts` touched by the embedded
code paths.  `lastCleaned` is a timestamp modelled as a natural number. -/
structure Dataset where
  name : String
  headers : List String
  data : List Row
  originalData : Option (List Row)
  stats : List ColumnStats
  lastCleaned : Option Nat
deriving DecidableEq, Repr

/-- Status of a cleaning action (`types.ts`). -/
inductive ActionStatus where
  | pending
  | applied
  | rejected
deriving DecidableEq, Repr

/-- A cleaning action as in `types.ts`. -/
structure CleaningAction where
  id : String
  type : String
  title : String
  description : String
  impactedRows : Nat
  status : ActionStatus
  suggestion : String
deriving DecidableEq, Repr

/-- An analysis insight as in `types.ts`. -/
structure AnalysisInsight where
  title : String
  description : String
  importance : String
deriving DecidableEq, Repr

/-- Decimal digit test, used by the model of JavaScript `Number`. -/
def isDigitChar (c : Char) : Bool :=
  '0' ≤ c && c ≤ '9'

/-- Whitespace trim on a character list, the model of JavaScript
`String.prototype.trim` (on the ASCII whitespace the source feeds it). -/
def trimChars (cs : List Char) : List Char :=
  ((cs.dropWhile Char.isWhitespace).reverse.dropWhile Char.isWhitespace).reverse

/-- Trim as a string-to-string operation. -/
def jsTrim (s : String) : String :=
  String.mk (trimChars s.data)

/-- Value of a digit string, most significant digit first. -/
def digitsVal (ds : List Char) : Nat :=
  ds.foldl (fun acc c => acc * 10 + (c.toNat - '0'.toNat)) 0

/-- Unsigned part of the JavaScript `Number` model: digits with an
optional single decimal point (`"5"`, `"5."`, `".5"`).  Exponent and hex
forms are outside the fragment the source ever feeds it. -/
def parseUnsigned? (cs : List Char) : Option Rat :=
  let intPart := cs.takeWhile isDigitChar
  let rest := cs.dropWhile isDigitChar
  match rest with
  | [] => if intPart.isEmpty then none else some (digitsVal intPart : Rat)
  | '.' :: frac =>
    if frac.all isDigitChar && !(intPart.isEmpty && frac.isEmpty) then
      some ((digitsVal intPart : Rat) + (digitsVal frac : Rat) / ((10 : Rat) ^ frac.length))
    else none
  | _ => none

/-- Model of JavaScript `Number(s)` on a string: `none` models `NaN`.
A whitespace-only string converts to `0`, as in JavaScript. -/
def jsNumber? (s : String) : Option Rat :=
  let t := trimChars s.data
  if t = [] then some 0
  else
    match t with
    | '-' :: rest => (parseUnsigned? rest).map (fun q => -q)
    | '+' :: rest => parseUnsigned? rest
    | cs => parseUnsigned? cs

/-- Field coercion from `parseCSV` (`UploadView.tsx`):
`obj[header] = isNaN(Number(val)) || val === '' ? val : Number(val)`.
A missing value (`values[i]` past the end) is `undefined`, and
`Number(undefined)` is `NaN`, so the row stores `undefined`. -/
def coerceField (val : Option String) : CellValue :=
  match val with
  | none => .jsUndefined
  | some v =>
    match jsNumber? v with
    | none => .str v
    | some q => if v = "" then .str "" else .num q

/-- JavaScript property assignment `obj[k] = v` on the association-list
row model: overwrite in place if the key exists, else append. -/
def objSet (row : Row) (k : String) (v : CellValue) : Row :=
  if row.any (fun p => p.1 == k) then
    row.map (fun p => if p.1 == k then (k, v) else p)
  else row ++ [(k, v)]

/-- JavaScript property read `row[k]`: `undefined` when the key is absent. -/
def objGet (row : Row) (k : String) : CellValue :=
  match row.find? (fun p => p.1 == k) with
  | some p => p.2
  | none => .jsUndefined

/-- JavaScript `Object.keys` on the row model (insertion order). -/
def objKeys (row : Row) : List String :=
  row.map (fun p => p.1)

/-- Row construction from `parseCSV`: `headers.forEach((header, i) =>
obj[header] = coerce(values[i]))` starting from an empty object. -/
def buildRow (headers values : List String) : Row :=
  headers.enum.foldl (fun obj p => objSet obj p.2 (coerceField (values.get? p.1))) []

/-- Split a character list at a separator character, keeping empty
pieces, like JavaScript `split` (an empty input gives one empty piece). -/
def splitChar (sep : Char) : List Char → List (List Char)
  | [] => [[]]
  | c :: cs =>
    match splitChar sep cs with
    | [] => if c = sep then [[], []] else [[c]]
    | piece :: more =>
      if c = sep then [] :: piece :: more
      else (c :: piece) :: more

/-- Drop a single trailing carriage return, for the `\r?\n` split. -/
def dropTrailingCR (cs : List Char) : List Char :=
  if cs.getLast? = some '\r' then cs.dropLast else cs

/-- Strip the carriage return from every piece except the last (the last
piece was not followed by a newline, so its `\r` is not part of a
separator). -/
def stripCRall : List (List Char) → List (List Char)
  | [] => []
  | [last] => [last]
  | p :: rest => dropTrailingCR p :: stripCRall rest

/-- Model of `text.split(/\r?\n/)`. -/
def jsSplitLines (text : String) : List String :=
  (stripCRall (splitChar '\n' text.data)).map String.mk

/-- Lines kept by `parseCSV`: `split(/\r?\n/).filter(line => line.trim())`,
i.e. lines whose trim is non-empty. -/
def nonBlankLines (text : String) : List String :=
  (jsSplitLines text).filter (fun line => trimChars line.data != [])

/-- Character scan of `parseLine`: a quote character only toggles
`inQuotes` (it is consumed, never added to the current field), a comma
outside quotes ends the field, every field is trimmed when pushed. -/
def parseLineGo : List Char → Bool → List Char → List String → List String
  | [], _, current, result => result ++ [String.mk (trimChars current)]
  | c :: cs, inQuotes, current, result =>
    if c = '"' then parseLineGo cs (!inQuotes) current result
    else if c = ',' && !inQuotes then
      parseLineGo cs inQuotes [] (result ++ [String.mk (trimChars current)])
    else parseLineGo cs inQuotes (current ++ [c]) result

/-- Model of `v.replace(/^"|"$/g, '')`: remove one leading and one
trailing quote character. -/
def stripOuterQuotes (s : String) : String :=
  let cs :=
    match s.data with
    | '"' :: rest => rest
    | other => other
  String.mk (if cs.getLast? = some '"' then cs.dropLast else cs)

/-- The `parseLine` helper of `parseCSV` (`UploadView.tsx`). -/
def parseLine (line : String) : List String :=
  (parseLineGo line.data false [] []).map stripOuterQuotes

/-- The CSV parser `parseCSV` of `UploadView.tsx`.  Note its result type:
it returns the (possibly empty) list of data rows and has no error
outcome; zero non-blank lines yields `[]` exactly like a header-only
input does. -/
def parseCSV (text : String) : List Row :=
  let lines := nonBlankLines text
  match lines with
  | [] => []
  | first :: rest =>
    let headers := parseLine first
    rest.map (fun line => buildRow headers (parseLine line))

/-- The data-dependent core of `handleFile` (`UploadView.tsx`): the parsed
rows are handed to `onDataLoaded` only when at least one row came back. -/
def handleFile (text : String) : Option (List Row) :=
  let data := parseCSV text
  if data.length > 0 then some data else none

/-- Missingness filter of the profiler: the source keeps values `v` with
`v !== null && v !== undefined && v !== ''`. -/
def isMissing (v : CellValue) : Bool :=
  v == .jsUndefined || v == .str ""

/-- Model of JavaScript `Number(v)` on a cell value (`none` is `NaN`).
`Number(true)` is `1` and `Number(false)` is `0`; the profiler guards with
a `typeof` check before ever using this on booleans. -/
def cellNumber? : CellValue → Option Rat
  | .num q => some q
  | .str s => jsNumber? s
  | .bool b => some (if b then 1 else 0)
  | .jsUndefined => none

/-- Boolean test used by the profiler's `typeof v !== 'boolean'` guard. -/
def CellValue.isBool : CellValue → Bool
  | .bool _ => true
  | _ => false

/-- Statistics for one column, from the app's `handleDataLoaded`:
non-missing values, distinct count (`new Set(values).size`), missing
count, and the all-or-nothing numeric test
`values.every(v => typeof v !== 'boolean' && !isNaN(Number(v)) && v !== '')`. -/
def computeStat (data : List Row) (header : String) : ColumnStats :=
  let values := (data.map (fun row => objGet row header)).filter (fun v => !(isMissing v))
  let uniqueValues := values.dedup.length
  let missingValues := data.length - values.length
  let isNumeric := values.all (fun v => !v.isBool && (cellNumber? v).isSome && v != .str "")
  { column := header
    type := if isNumeric then .numeric else .categorical
    uniqueValues := uniqueValues
    missingValues := missingValues }

/-- One `ColumnStats` per header, in header order. -/
def computeStats (headers : List String) (data : List Row) : List ColumnStats :=
  headers.map (computeStat data)

/-- The app's `handleDataLoaded`: returns early (no dataset) on empty
data, otherwise derives headers from the first row's keys, profiles every
column and installs the new active dataset. -/
def handleDataLoaded (data : List Row) (name : String) : Option Dataset :=
  if data.length = 0 then none
  else
    let headers := objKeys ((data.head?).getD [])
    some { name := name
           headers := headers
           data := data
           originalData := some data
           stats := computeStats headers data
           lastCleaned := none }

/-- Observable outcome of one `callWithRetry` run: how many attempts the
loop made, the backoff delays it slept (in order), and the value returned
or error thrown.  The error side is an `Option` because the source's
final `throw lastError` throws `undefined` when `maxRetries = 0` and no
attempt ever ran. -/
structure RetryResult (E A : Type) where
  attempts : Nat
  delays : List Nat
  result : Except (Option E) A

/-- Loop body of `callWithRetry` (`geminiService.ts`), recursing on the
number of remaining iterations (`remaining` at entry equals
`maxRetries - i`).  Attempt `i`'s outcome is `outcomes i`; on failure
with further iterations left the loop sleeps `initialDelay * 2 ^ i` and
continues, otherwise it rethrows the error. -/
def callWithRetryGo {E A : Type} (outcomes : Nat → Except E A) (initialDelay : Nat) :
    Nat → Nat → Option E → List Nat → RetryResult E A
  | 0, i, lastError, delays => ⟨i, delays, .error lastError⟩
  | remaining + 1, i, _, delays =>
    match outcomes i with
    | .ok a => ⟨i + 1, delays, .ok a⟩
    | .error e =>
      if remaining = 0 then ⟨i + 1, delays, .error (some e)⟩
      else callWithRetryGo outcomes initialDelay remaining (i + 1) (some e)
             (delays ++ [initialDelay * 2 ^ i])

/-- The retry wrapper `callWithRetry` of `geminiService.ts` (source
defaults: `maxRetries = 2`, `initialDelay = 1000`).  The wrapped call is
modelled by the per-attempt outcome function `outcomes`. -/
def callWithRetry {E A : Type} (outcomes : Nat → Except E A)
    (maxRetries initialDelay : Nat) : RetryResult E A :=
  callWithRetryGo outcomes initialDelay maxRetries 0 none []

/-- Failure classification from the specification's Gateway vocabulary:
rate limiting is retryable, malformed requests and authentication
failures are not.  The source's `callWithRetry` never inspects this. -/
inductive GatewayFailure where
  | rateLimit
  | authFailure
  | malformedRequest
deriving DecidableEq, Repr

/-- Modelled from the spec: which `GatewayFailure`s count as retryable
(rate-limit / transient).  The source contains no such classifier. -/
def retryable : GatewayFailure → Bool
  | .rateLimit => true
  | _ => false

/-- JSON values, for the collaborator's response payloads. -/
inductive Json where
  | null
  | bool (b : Bool)
  | num (q : Rat)
  | str (s : String)
  | arr (elems : List Json)
  | obj (fields : List (String × Json))

/-- JavaScript property read `j.k` on a parsed JSON value: `none` models
`undefined` (also for reads on non-objects). -/
def getField : Json → String → Option Json
  | .obj fields, k => (fields.find? (fun p => p.1 == k)).map (fun p => p.2)
  | _, _ => none

/-- JavaScript truthiness of a JSON value. -/
def jsTruthy : Json → Bool
  | .null => false
  | .bool b => b
  | .num q => q != 0
  | .str s => s != ""
  | .arr _ => true
  | .obj _ => true

/-- The body of a collaborator response, an abstraction of
`response.text`: absent/empty (falsy), text that `JSON.parse` decodes to
a given JSON value, or text that is not valid JSON. -/
inductive ResponseBody where
  | empty
  | json (j : Json)
  | invalid (s : String)

/-- Errors thrown inside the audit service body: a `JSON.parse` syntax
error on a non-JSON payload, or the `TypeError` of calling `.map` on a
truthy non-array. -/
inductive AuditError where
  | notJson (s : String)
  | typeError
deriving DecidableEq, Repr

/-- Model of `JSON.parse(response.text || '{}')` in `auditDataset`:
an empty/absent body falls back to the literal `'{}'` (the empty object),
a valid JSON body yields its value, and a non-JSON body throws. -/
def jsonParseOrEmptyObj : ResponseBody → Except AuditError Json
  | .empty => .ok (.obj [])
  | .json j => .ok j
  | .invalid s => .error (.notJson s)

/-- Model of `x || []` on a possibly-absent JSON field: an absent or
falsy value is replaced by the empty array, a truthy value is kept as
is (even when it is not an array). -/
def jsOrEmptyArr (v : Option Json) : Json :=
  match v with
  | none => .arr []
  | some j => if jsTruthy j then j else .arr []

/-- JavaScript spread-with-override from `auditDataset`: the object
spread of `a` with its `status` and `id` properties replaced by
`'pending'` and a freshly generated identifier (spreading a non-object
contributes no properties). -/
def spreadOverride (a : Json) (ident : String) : Json :=
  let base :=
    match a with
    | .obj fields => fields.filter (fun p => p.1 != "status" && p.1 != "id")
    | _ => []
  .obj (base ++ [("status", .str "pending"), ("id", .str ident)])

/-- JavaScript `.map` with index on a JSON value: a `TypeError` unless the
value is an array. -/
def jsMapIdx (f : Nat → Json → Json) : Json → Except AuditError (List Json)
  | .arr xs => .ok (xs.mapIdx f)
  | _ => .error .typeError

/-- Body of one `auditDataset` attempt (`geminiService.ts`), applied to
the response body it received: parse (with the `'{}'` fallback), then
`(parsed.actions || []).map(a => spread with status 'pending' and a fresh
id)` and `parsed.insights || []`.  `ids k` supplies the fresh identifier
generated for the `k`-th action (`Math.random().toString(36).substr(2, 9)`
in the source). -/
def auditFromBody (ids : Nat → String) (body : ResponseBody) :
    Except AuditError (List Json × Json) :=
  match jsonParseOrEmptyObj body with
  | .error e => .error e
  | .ok parsed =>
    match jsMapIdx (fun k a => spreadOverride a (ids k)) (jsOrEmptyArr (getField parsed "actions")) with
    | .error e => .error e
    | .ok actions => .ok (actions, jsOrEmptyArr (getField parsed "insights"))

/-- The audit service `auditDataset`: the attempt body wrapped in
`callWithRetry`, with the response body of attempt `n` given by
`bodies n`. -/
def auditDataset (ids : Nat → String) (bodies : Nat → ResponseBody)
    (maxRetries initialDelay : Nat) : RetryResult AuditError (List Json × Json) :=
  callWithRetry (fun n => auditFromBody ids (bodies n)) maxRetries initialDelay

/-- Sample bound of the clean operation (`geminiService.ts`,
`const rowLimit = 200`). -/
def rowLimit : Nat := 200

/-- Sample sent to the collaborator by `autoCleanDataset`:
`dataset.data.slice(0, rowLimit)`. -/
def cleanSample (data : List Row) : List Row :=
  data.take rowLimit

/-- Result assembly of `autoCleanDataset` (`geminiService.ts`):
the collaborator's cleaned array, with `data.slice(rowLimit)` appended
when the original dataset exceeded the bound.  `cleanedResponse` is the
array the collaborator returned for the sampled prefix. -/
def autoCleanDataset (data : List Row) (cleanedResponse : List Row) : List Row :=
  if data.length > rowLimit then cleanedResponse ++ data.drop rowLimit
  else cleanedResponse

/-- Terminal gateway failure surfaced to the orchestrator. -/
inductive GatewayError where
  | err (msg : String)
deriving DecidableEq, Repr

/-- The `CleanView` component state touched by the orchestration
handlers. -/
structure CleanState where
  pendingActions : List CleaningAction
  previewData : List Row
  hasChanges : Bool
  isProcessing : Bool
deriving DecidableEq, Repr

/-- The `handleApplyAction` handler of `CleanView.tsx`, as a function of
the service call's outcome: on success the preview becomes the cleaned
rows, the targeted action is marked applied and `hasChanges` is set; on
error the `catch` only logs, so besides `isProcessing` (set in `finally`)
nothing changes. -/
def handleApplyAction (st : CleanState) (action : CleaningAction)
    (callResult : Except GatewayError (List Row)) : CleanState :=
  match callResult with
  | .ok cleaned =>
    { st with previewData := cleaned
              pendingActions := st.pendingActions.map
                (fun a => if a.id == action.id then { a with status := .applied } else a)
              hasChanges := true
              isProcessing := false }
  | .error _ => { st with isProcessing := false }

/-- The `handleCommit` handler of `CleanView.tsx`:
`onUpdate({ ...dataset, data: previewData, lastCleaned: new Date() })`.
The spread keeps every other field — including `stats` — unchanged. -/
def handleCommit (dataset : Dataset) (previewData : List Row) (now : Nat) : Dataset :=
  { dataset with data := previewData, lastCleaned := some now }

/-- The `useEffect` of `CleanView.tsx` keyed on `dataset.data`: the
working copy is reset to the (new) committed dataset's records. -/
def resetPreview (dataset : Dataset) : List Row :=
  dataset.data

/-- State observed by the stale-audit-response scenario: the active
dataset's name together with the clean view's action queue and
insights. -/
structure AuditSession where
  activeName : String
  pendingActions : List CleaningAction
  insights : List AnalysisInsight
deriving DecidableEq, Repr

/-- Events of the stale-response scenario: a dataset becomes active, or
an audit launched for a (possibly no longer active) dataset resolves. -/
inductive CleanEvent where
  | loadDataset (name : String)
  | auditResolves (launchedFor : String) (actions : List CleaningAction)
      (insights : List AnalysisInsight)
deriving DecidableEq, Repr

/-- Step function translated from `CleanView.tsx`: loading a dataset
changes the active identity, and the continuation of `runAudit`
(`setPendingActions(auditRes.actions); setInsights(auditRes.insights)`)
applies an arriving response unconditionally — the source never compares
`launchedFor` with the currently active dataset. -/
def stepEvent (st : AuditSession) : CleanEvent → AuditSession
  | .loadDataset name => { st with activeName := name }
  | .auditResolves _ actions insights =>
    { st with pendingActions := actions, insights := insights }

/-- Run a sequence of events. -/
def runEvents (st : AuditSession) (evs : List CleanEvent) : AuditSession :=
  evs.foldl stepEvent st

/-- Concrete input of the C7 scenario. -/
def csvC7 : String := "a,b\n1,x\n2,y\n,z"

/-- A simple distinguishable row for the sampling-bound scenarios. -/
def rowOfIdx (i : Nat) : Row :=
  [("id", CellValue.str (Nat.repr i))]

/-- A 201-row dataset, one more row than the clean-operation bound. -/
def data201 : List Row :=
  (List.range 201).map rowOfIdx

/-- A collaborator response of exactly `rowLimit` cleaned rows. -/
def resp200 : List Row :=
  (List.range 200).map (fun i => [("cleaned", CellValue.str (Nat.repr i))])

/-- Attempt outcomes that fail twice retryably and then succeed. -/
def ocSuccessAfterTwo : Nat → Except String Nat :=
  fun i => if i = 0 then .error "e0" else if i = 1 then .error "e1" else .ok 7

/-- Attempt outcomes that fail on every attempt of a three-attempt run. -/
def ocAlwaysFail : Nat → Except String Nat :=
  fun i => if i = 0 then .error "f0" else if i = 1 then .error "f1" else .error "f2"

/-- Attempt outcomes whose first failure is non-retryable (an
authentication failure) followed by success. -/
def ocNonRetryable : Nat → Except GatewayFailure Nat :=
  fun i => if i = 0 then .error .authFailure else .ok 42

/-- Committed records of the C5 scenario: one numeric cell. -/
def dataC5 : List Row := [[("a", CellValue.num 1)]]

/-- Working copy of the C5 scenario: the cell replaced by a
non-numeric string, so a fresh profile would differ. -/
def previewC5 : List Row := [[("a", CellValue.str "x")]]

/-- Committed dataset of the C5 scenario, with stats profiled from its
own records exactly as ingestion does. -/
def dsC5 : Dataset :=
  { name := "d.csv"
    headers := ["a"]
    data := dataC5
    originalData := some dataC5
    stats := computeStats ["a"] dataC5
    lastCleaned := none }

/-- Fresh-identifier generator used by the C10 witness. -/
def idsW : Nat → String :=
  fun k => Nat.repr k

/-- Audit response body used by the C10 witness: one action object that
already carries its own `id` and a non-pending `status`, plus one
insight. -/
def bodyW : ResponseBody :=
  .json (.obj
    [("actions", .arr [.obj
        [("id", .str "model-id"), ("type", .str "duplicates"), ("status", .str "applied")]]),
     ("insights", .arr [.str "i0"])])

/-- Actions list `auditDataset` produces for `bodyW`: the action's own
`id`/`status` fields are overwritten. -/
def actsW : List Json :=
  [.obj [("type", .str "duplicates"), ("status", .str "pending"), ("id", .str "0")]]

/-- Insights value `auditDataset` produces for `bodyW`. -/
def insW : Json := .arr [.str "i0"]

/-- A pending action carried by dataset A's stale audit response in the
C9 scenario. -/
def actA : CleaningAction :=
  { id := "a1"
    type := "missing_values"
    title := "Fill missing values"
    description := "fill the blanks"
    impactedRows := 1
    status := .pending
    suggestion := "fill" }

/-- Event trace of the C9 scenario: dataset A is active and its audit is
in flight, dataset B is loaded, B's audit resolves (empty queue), then
A's stale audit response arrives last. -/
def traceC9 : List CleanEvent :=
  [.loadDataset "A", .loadDataset "B",
   .auditResolves "B" [] [],
   .auditResolves "A" [actA] []]

/-- Initial session state for the C9 scenario. -/
def sessionInit : AuditSession :=
  { activeName := "", pendingActions := [], insights := [] }

/-- Unfolding lemma: a successful attempt ends the retry loop at once. -/
theorem callWithRetryGo_succ_ok {E A : Type} (outcomes : Nat → Except E A) (d r i : Nat)
    (le : Option E) (dls : List Nat) (a : A) (h : outcomes i = .ok a) :
    callWithRetryGo outcomes d (r + 1) i le dls = ⟨i + 1, dls, .ok a⟩ := by
  simp [callWithRetryGo, h]

/-- Unfolding lemma: a failure on the final attempt is rethrown. -/
theorem callWithRetryGo_succ_last {E A : Type} (outcomes : Nat → Except E A) (d i : Nat)
    (le : Option E) (dls : List Nat) (e : E) (h : outcomes i = .error e) :
    callWithRetryGo outcomes d (0 + 1) i le dls = ⟨i + 1, dls, .error (some e)⟩ := by
  simp [callWithRetryGo, h]

/-- Unfolding lemma: a failure with attempts to spare sleeps
`d * 2 ^ i` and retries. -/
theorem callWithRetryGo_succ_retry {E A : Type} (outcomes : Nat → Except E A) (d r i : Nat)
    (le : Option E) (dls : List Nat) (e : E) (h : outcomes i = .error e) (hr : r ≠ 0) :
    callWithRetryGo outcomes d (r + 1) i le dls
      = callWithRetryGo outcomes d r (i + 1) (some e) (dls ++ [d * 2 ^ i]) := by
  simp [callWithRetryGo, h, hr]

/-- When every attempt fails with the same error, the loop surfaces that
error whatever the retry budget. -/
theorem callWithRetryGo_const_error {E A : Type} (outcomes : Nat → Except E A) (d : Nat)
    (e : E) (h : ∀ n, outcomes n = .error e) :
    ∀ r i le dls, r ≠ 0 →
      (callWithRetryGo outcomes d r i le dls).result = .error (some e) := by
  intro r
  induction r with
  | zero => intro i le dls h0; exact absurd rfl h0
  | succ r ih =>
    intro i le dls _
    by_cases hr : r = 0
    · subst hr
      rw [callWithRetryGo_succ_last outcomes d i le dls e (h i)]
    · rw [callWithRetryGo_succ_retry outcomes d r i le dls e (h i) hr]
      exact ih (i + 1) (some e) (dls ++ [d * 2 ^ i]) hr

/-- Keys removed by the spread-override are not found in the filtered
base fields. -/
theorem find?_override_none (fields : List (String × Json)) (key : String)
    (hkey : key = "status" ∨ key = "id") :
    (fields.filter (fun p => p.1 != "status" && p.1 != "id")).find?
      (fun p => p.1 == key) = none := by
  rw [List.find?_eq_none]
  intro x hx
  have hpred := List.of_mem_filter hx
  simp only [Bool.and_eq_true, bne_iff_ne] at hpred
  simp only [beq_iff_eq]
  rcases hkey with rfl | rfl
  · exact hpred.1
  · exact hpred.2

/-- The overridden object always reads `status` as `'pending'`. -/
theorem getField_spreadOverride_status (a : Json) (ident : String) :
    getField (spreadOverride a ident) "status" = some (.str "pending") := by
  cases a with
  | obj fields =>
    simp only [spreadOverride, getField]
    rw [List.find?_append, find?_override_none fields "status" (Or.inl rfl)]
    rfl
  | null => rfl
  | bool b => rfl
  | num q => rfl
  | str s => rfl
  | arr elems => rfl

/-- The overridden object always reads `id` as the fresh identifier. -/
theorem getField_spreadOverride_id (a : Json) (ident : String) :
    getField (spreadOverride a ident) "id" = some (.str ident) := by
  cases a with
  | obj fields =>
    simp only [spreadOverride, getField]
    rw [List.find?_append, find?_override_none fields "id" (Or.inr rfl)]
    rfl
  | null => rfl
  | bool b => rfl
  | num q => rfl
  | str s => rfl
  | arr elems => rfl

/-- C1: the claim that after a clean operation on a dataset with more
rows than the 200-row sample bound, every row at index at least the
bound is unchanged *at that index*, fails: the source appends the
untouched suffix after the collaborator's cleaned array of whatever
length, so when the collaborator returns an empty array for the 201-row
dataset, the result has one row and index 200 no longer holds the
original row. -/
theorem c1_sample_bound_counterexample :
    data201.length > rowLimit ∧
    (autoCleanDataset data201 [])[200]? ≠ data201[200]? := by
  decide

/-- C1 (amended): for a dataset beyond the bound, the rows from index
200 on are reattached unmodified, in order, as the suffix following the
collaborator-returned prefix; when the collaborator returns exactly 200
rows (the sampled count), every row at index at least 200 is unchanged
at its original index. -/
theorem c1_clean_suffix_reattached (data response : List Row) (h : data.length > rowLimit) :
    (autoCleanDataset data response).drop response.length = data.drop rowLimit ∧
    (response.length = rowLimit → ∀ i, rowLimit ≤ i →
      (autoCleanDataset data response)[i]? = data[i]?) := by
  constructor
  · simp only [autoCleanDataset, if_pos h]
    exact List.drop_left response (data.drop rowLimit)
  · intro hlen i hi
    simp only [autoCleanDataset, if_pos h]
    rw [List.getElem?_append_right (by omega), List.getElem?_drop]
    rw [show rowLimit + (i - response.length) = i by omega]

/-- Witness for C1 (amended) at the 201-row dataset and a 200-row
response. -/
theorem c1_clean_suffix_reattached_witness :
    (autoCleanDataset data201 resp200).drop resp200.length = data201.drop rowLimit ∧
    (autoCleanDataset data201 resp200)[200]? = data201[200]? :=
  ⟨(c1_clean_suffix_reattached data201 resp200 (by decide)).1,
   (c1_clean_suffix_reattached data201 resp200 (by decide)).2 (by decide) 200 (by decide)⟩

/-- C2: with `maxRetries = 3` and base delay `d`, two retryable failures
followed by success make exactly 3 attempts with delays `d` then `2d`;
and when all three attempts fail, the last error is surfaced to the
caller. -/
theorem c2_retry_backoff_exact {E A : Type} (ocS ocF : Nat → Except E A) (d : Nat)
    (e0 e1 f0 f1 f2 : E) (a : A)
    (h0 : ocS 0 = .error e0) (h1 : ocS 1 = .error e1) (h2 : ocS 2 = .ok a)
    (g0 : ocF 0 = .error f0) (g1 : ocF 1 = .error f1) (g2 : ocF 2 = .error f2) :
    callWithRetry ocS 3 d = ⟨3, [d, 2 * d], .ok a⟩ ∧
    callWithRetry ocF 3 d = ⟨3, [d, 2 * d], .error (some f2)⟩ := by
  constructor
  · calc callWithRetry ocS 3 d
        = callWithRetryGo ocS d (2 + 1) 0 none [] := rfl
      _ = callWithRetryGo ocS d 2 1 (some e0) ([] ++ [d * 2 ^ 0]) :=
          callWithRetryGo_succ_retry ocS d 2 0 none [] e0 h0 (by decide)
      _ = callWithRetryGo ocS d (1 + 1) 1 (some e0) [d * 2 ^ 0] := by rw [List.nil_append]
      _ = callWithRetryGo ocS d 1 2 (some e1) ([d * 2 ^ 0] ++ [d * 2 ^ 1]) :=
          callWithRetryGo_succ_retry ocS d 1 1 (some e0) [d * 2 ^ 0] e1 h1 (by decide)
      _ = callWithRetryGo ocS d (0 + 1) 2 (some e1) [d * 2 ^ 0, d * 2 ^ 1] := rfl
      _ = ⟨3, [d * 2 ^ 0, d * 2 ^ 1], .ok a⟩ :=
          callWithRetryGo_succ_ok ocS d 0 2 (some e1) [d * 2 ^ 0, d * 2 ^ 1] a h2
      _ = ⟨3, [d, 2 * d], .ok a⟩ := by
          rw [show d * 2 ^ 0 = d by ring, show d * 2 ^ 1 = 2 * d by ring]
  · calc callWithRetry ocF 3 d
        = callWithRetryGo ocF d (2 + 1) 0 none [] := rfl
      _ = callWithRetryGo ocF d 2 1 (some f0) ([] ++ [d * 2 ^ 0]) :=
          callWithRetryGo_succ_retry ocF d 2 0 none [] f0 g0 (by decide)
      _ = callWithRetryGo ocF d (1 + 1) 1 (some f0) [d * 2 ^ 0] := by rw [List.nil_append]
      _ = callWithRetryGo ocF d 1 2 (some f1) ([d * 2 ^ 0] ++ [d * 2 ^ 1]) :=
          callWithRetryGo_succ_retry ocF d 1 1 (some f0) [d * 2 ^ 0] f1 g1 (by decide)
      _ = callWithRetryGo ocF d (0 + 1) 2 (some f1) [d * 2 ^ 0, d * 2 ^ 1] := rfl
      _ = ⟨3, [d * 2 ^ 0, d * 2 ^ 1], .error (some f2)⟩ :=
          callWithRetryGo_succ_last ocF d 2 (some f1) [d * 2 ^ 0, d * 2 ^ 1] f2 g2
      _ = ⟨3, [d, 2 * d], .error (some f2)⟩ := by
          rw [show d * 2 ^ 0 = d by ring, show d * 2 ^ 1 = 2 * d by ring]

/-- Witness for C2 at concrete outcome sequences and base delay 5. -/
theorem c2_retry_backoff_exact_witness :
    callWithRetry ocSuccessAfterTwo 3 5 = ⟨3, [5, 10], .ok 7⟩ ∧
    callWithRetry ocAlwaysFail 3 5 = ⟨3, [5, 10], .error (some "f2")⟩ :=
  c2_retry_backoff_exact ocSuccessAfterTwo ocAlwaysFail 5 "e0" "e1" "f0" "f1" "f2" 7
    rfl rfl rfl rfl rfl rfl

/-- C3: the claim that non-retryable failures propagate immediately with
no retry and no delay fails: `callWithRetry` never classifies errors, so
a run whose first failure is a non-retryable authentication failure
still makes a second attempt after sleeping the base delay. -/
theorem c3_nonretryable_retried_counterexample :
    retryable .authFailure = false ∧
    (callWithRetry ocNonRetryable 2 1000).attempts = 2 ∧
    (callWithRetry ocNonRetryable 2 1000).delays = [1000] ∧
    (callWithRetry ocNonRetryable 2 1000).result = .ok 42 :=
  ⟨rfl, rfl, rfl, rfl⟩

/-- C3 (amended): every failure, whatever its classification, is retried
with backoff while attempts remain below `maxRetries`; the retryable
classification is never consulted (the error `e` here is arbitrary). -/
theorem c3_all_failures_retried {E A : Type} (oc : Nat → Except E A) (d : Nat) (e : E) (a : A)
    (h0 : oc 0 = .error e) (h1 : oc 1 = .ok a) :
    callWithRetry oc 2 d = ⟨2, [d], .ok a⟩ := by
  calc callWithRetry oc 2 d
      = callWithRetryGo oc d (1 + 1) 0 none [] := rfl
    _ = callWithRetryGo oc d 1 1 (some e) ([] ++ [d * 2 ^ 0]) :=
        callWithRetryGo_succ_retry oc d 1 0 none [] e h0 (by decide)
    _ = callWithRetryGo oc d (0 + 1) 1 (some e) [d * 2 ^ 0] := by rw [List.nil_append]
    _ = ⟨2, [d * 2 ^ 0], .ok a⟩ :=
        callWithRetryGo_succ_ok oc d 0 1 (some e) [d * 2 ^ 0] a h1
    _ = ⟨2, [d], .ok a⟩ := by rw [show d * 2 ^ 0 = d by ring]

/-- Witness for C3 (amended): the non-retryable authentication failure is
retried like any other error. -/
theorem c3_all_failures_retried_witness :
    callWithRetry ocNonRetryable 2 1000 = ⟨2, [1000], .ok 42⟩ ∧
    retryable .authFailure = false :=
  ⟨c3_all_failures_retried ocNonRetryable 1000 .authFailure 42 rfl rfl, rfl⟩

/-- C4: the claim that every reachable response failing schema
validation — including a non-JSON body — yields the empty default with
no error fails: `JSON.parse` throws on a non-JSON body, the retry
wrapper retries and then surfaces the parse error as a terminal error
instead of returning `actions = [], insights = []`. -/
theorem c4_invalid_payload_counterexample :
    (auditDataset (fun _ => "fresh") (fun _ => .invalid "not json") 2 1000).result
      = .error (some (.notJson "not json")) ∧
    (auditDataset (fun _ => "fresh") (fun _ => .invalid "not json") 2 1000).attempts = 2 ∧
    ¬ (auditDataset (fun _ => "fresh") (fun _ => .invalid "not json") 2 1000).result
        = .ok ([], .arr []) :=
  ⟨rfl, rfl, fun hcontra => Except.noConfusion hcontra⟩

/-- C4 (amended): a missing payload, or a valid-JSON payload lacking the
`actions` and `insights` fields, yields the empty default with no error
raised; a body that is not valid JSON makes the attempt throw, and when
every attempt does so the parse failure surfaces as the terminal
error of the audit call. -/
theorem c4_soft_default_vs_parse_error (ids : Nat → String) (bodies : Nat → ResponseBody)
    (m d : Nat) (s : String) (j : Json) (hm : m ≠ 0) :
    (bodies 0 = .empty → (auditDataset ids bodies m d).result = .ok ([], .arr [])) ∧
    ((bodies 0 = .json j ∧ getField j "actions" = none ∧ getField j "insights" = none) →
      (auditDataset ids bodies m d).result = .ok ([], .arr [])) ∧
    ((∀ n, bodies n = .invalid s) →
      (auditDataset ids bodies m d).result = .error (some (.notJson s))) := by
  obtain ⟨r, rfl⟩ : ∃ r, m = r + 1 := ⟨m - 1, by omega⟩
  refine ⟨fun hb => ?_, fun hb => ?_, fun hb => ?_⟩
  · have hoc : (fun n => auditFromBody ids (bodies n)) 0 = .ok ([], .arr []) := by
      show auditFromBody ids (bodies 0) = .ok ([], .arr [])
      rw [hb]
      rfl
    show (callWithRetryGo (fun n => auditFromBody ids (bodies n)) d (r + 1) 0 none []).result
        = .ok ([], .arr [])
    rw [callWithRetryGo_succ_ok (fun n => auditFromBody ids (bodies n)) d r 0 none []
      ([], .arr []) hoc]
  · have hoc : (fun n => auditFromBody ids (bodies n)) 0 = .ok ([], .arr []) := by
      show auditFromBody ids (bodies 0) = .ok ([], .arr [])
      rw [hb.1]
      simp [auditFromBody, jsonParseOrEmptyObj, hb.2.1, hb.2.2, jsOrEmptyArr, jsMapIdx]
    show (callWithRetryGo (fun n => auditFromBody ids (bodies n)) d (r + 1) 0 none []).result
        = .ok ([], .arr [])
    rw [callWithRetryGo_succ_ok (fun n => auditFromBody ids (bodies n)) d r 0 none []
      ([], .arr []) hoc]
  · have hoc : ∀ n, (fun n => auditFromBody ids (bodies n)) n = .error (.notJson s) := by
      intro n
      show auditFromBody ids (bodies n) = .error (.notJson s)
      rw [hb n]
      rfl
    exact callWithRetryGo_const_error (fun n => auditFromBody ids (bodies n)) d
      (.notJson s) hoc (r + 1) 0 none [] (by omega)

/-- Witness for C4 (amended) at an empty body with two attempts. -/
theorem c4_soft_default_vs_parse_error_witness :
    (auditDataset (fun _ => "f") (fun _ => .empty) 2 1000).result = .ok ([], .arr []) :=
  (c4_soft_default_vs_parse_error (fun _ => "f") (fun _ => .empty) 2 1000 "s" .null
    (by decide)).1 rfl

/-- C5: the claim that `commit()` freshly recomputes `columnStats` from
the committed records fails: `handleCommit` spreads the previous dataset,
so the new committed dataset keeps the old stats, which differ from the
profile of its own records once a numeric cell was replaced by a
string. -/
theorem c5_stale_stats_counterexample :
    (handleCommit dsC5 previewC5 7).stats = dsC5.stats ∧
    (handleCommit dsC5 previewC5 7).stats
      ≠ computeStats (handleCommit dsC5 previewC5 7).headers
          (handleCommit dsC5 previewC5 7).data := by
  decide

/-- C5 (amended): `handleCommit` produces a new committed dataset whose
records equal the working copy at call time and which records a
last-cleaned timestamp; its `columnStats` are *not* recomputed — they
remain those of the previous committed dataset — and the working copy is
reset (by the effect keyed on the committed records) to the new
dataset's records. -/
theorem c5_commit_semantics (dataset : Dataset) (previewData : List Row) (now : Nat) :
    (handleCommit dataset previewData now).data = previewData ∧
    (handleCommit dataset previewData now).lastCleaned = some now ∧
    (handleCommit dataset previewData now).stats = dataset.stats ∧
    (handleCommit dataset previewData now).headers = dataset.headers ∧
    (handleCommit dataset previewData now).name = dataset.name ∧
    resetPreview (handleCommit dataset previewData now) = previewData :=
  ⟨rfl, rfl, rfl, rfl, rfl, rfl⟩

/-- C6: when the gateway call issued during `handleApplyAction` ends in
an error, the pending-action queue (hence the targeted action's
`pending` status) and the working copy are exactly as before the call —
the apply operation is atomic on error. -/
theorem c6_apply_error_atomic (st : CleanState) (action : CleaningAction) (e : GatewayError) :
    (handleApplyAction st action (.error e)).pendingActions = st.pendingActions ∧
    (handleApplyAction st action (.error e)).previewData = st.previewData ∧
    (handleApplyAction st action (.error e)).hasChanges = st.hasChanges :=
  ⟨rfl, rfl, rfl⟩

/-- C7: parsing `"a,b\n1,x\n2,y\n,z"` and profiling the result yields
headers `["a","b"]`; column `a` has one missing value, two distinct
values and type numeric; column `b` has no missing value, three distinct
values and type categorical. -/
theorem c7_parse_profile_scenario :
    (handleDataLoaded (parseCSV csvC7) "sample.csv").map
        (fun dset => (dset.headers, dset.stats)) =
      some (["a", "b"],
        [{ column := "a", type := .numeric, uniqueValues := 2, missingValues := 1 },
         { column := "b", type := .categorical, uniqueValues := 3, missingValues := 0 }]) := by
  decide

/-- C8: the claim that the parser fails with `MalformedInputError`
exactly when the input has zero non-blank lines fails: `parseCSV` has no
error outcome at all — an empty input returns the same ordinary empty
row list as a successful header-only parse, so the two cases the claim
distinguishes are indistinguishable. -/
theorem c8_no_error_counterexample :
    parseCSV "" = [] ∧ parseCSV "a,b" = [] ∧ parseCSV "a,b\n\n  \n" = [] := by
  decide

/-- C8 (amended): on zero non-blank lines `parseCSV` returns the empty
row list (no error value exists); a header line with only blank data
rows also yields zero rows; and whenever zero rows come back no dataset
is created (`handleFile` does not fire its callback and
`handleDataLoaded` returns early). -/
theorem c8_empty_parse_no_dataset (text name : String) :
    (nonBlankLines text = [] → parseCSV text = []) ∧
    (parseCSV text = [] → handleFile text = none) ∧
    handleDataLoaded [] name = none := by
  refine ⟨fun h => ?_, fun h => ?_, rfl⟩
  · simp [parseCSV, h]
  · simp [handleFile, h]

/-- Witness for C8 (amended) at the empty input. -/
theorem c8_empty_parse_no_dataset_witness :
    parseCSV "" = [] ∧ handleFile "" = none :=
  ⟨(c8_empty_parse_no_dataset "" "d").1 (by decide),
   (c8_empty_parse_no_dataset "" "d").2.1 ((c8_empty_parse_no_dataset "" "d").1 (by decide))⟩

/-- C9: the claim that a stale audit response arriving after a dataset
switch is discarded fails on the component's own code: in the trace
where dataset A's audit is in flight, B is loaded and B's audit resolves
first, A's late response still overwrites the queue while B is active,
because the resolution handler has no dataset-identity check. -/
theorem c9_stale_response_counterexample :
    (runEvents sessionInit (traceC9.take 3)).pendingActions = [] ∧
    (runEvents sessionInit traceC9).activeName = "B" ∧
    (runEvents sessionInit traceC9).pendingActions = [actA] ∧
    [actA] ≠ ([] : List CleaningAction) := by
  decide

/-- C9 (amended): an arriving audit response is applied to the current
state unconditionally, whatever dataset it was launched for — the
component performs no identity validation, so discarding can only come
from the framework unmounting the component, outside this code. -/
theorem c9_audit_applied_unconditionally (st : AuditSession) (launchedFor : String)
    (actions : List CleaningAction) (insights : List AnalysisInsight) :
    (stepEvent st (.auditResolves launchedFor actions insights)).pendingActions = actions ∧
    (stepEvent st (.auditResolves launchedFor actions insights)).insights = insights ∧
    (stepEvent st (.auditResolves launchedFor actions insights)).activeName = st.activeName :=
  ⟨rfl, rfl, rfl⟩

/-- C10: every action in a successful audit result carries status
`'pending'` and the application-generated fresh identifier for its
position, overwriting whatever `id`/`status` the collaborator's response
contained; and when the parsed response lacks the `actions` (resp.
`insights`) field, the corresponding result is the empty list. -/
theorem c10_actions_normalised (ids : Nat → String) (body : ResponseBody)
    (actions : List Json) (insights : Json)
    (h : auditFromBody ids body = .ok (actions, insights)) :
    (∀ k (hk : k < actions.length),
        getField (actions.get ⟨k, hk⟩) "status" = some (.str "pending") ∧
        getField (actions.get ⟨k, hk⟩) "id" = some (.str (ids k))) ∧
    (∀ j, body = .json j → getField j "actions" = none → actions = []) ∧
    (∀ j, body = .json j → getField j "insights" = none → insights = .arr []) := by
  cases body with
  | empty =>
    rw [show auditFromBody ids .empty = .ok (([] : List Json), Json.arr []) from rfl] at h
    injection h with hp
    obtain ⟨rfl, rfl⟩ := Prod.mk.inj hp
    refine ⟨?_, ?_, ?_⟩
    · intro k hk
      exact absurd hk (by simp)
    · intro j hj
      exact ResponseBody.noConfusion hj
    · intro j hj
      exact ResponseBody.noConfusion hj
  | invalid s =>
    exact Except.noConfusion h
  | json j =>
    simp only [auditFromBody, jsonParseOrEmptyObj] at h
    rcases hv : jsOrEmptyArr (getField j "actions") with _ | b | q | s | xs | fields
    all_goals rw [hv] at h
    case null => simp [jsMapIdx] at h
    case bool => simp [jsMapIdx] at h
    case num => simp [jsMapIdx] at h
    case str => simp [jsMapIdx] at h
    case obj => simp [jsMapIdx] at h
    case arr =>
      simp only [jsMapIdx] at h
      injection h with hp
      obtain ⟨rfl, rfl⟩ := Prod.mk.inj hp
      refine ⟨?_, ?_, ?_⟩
      · intro k hk
        have hk' : k < xs.length := by simpa [List.length_mapIdx] using hk
        rw [List.get_mapIdx xs (fun k a => spreadOverride a (ids k)) k hk' hk]
        exact ⟨getField_spreadOverride_status _ _, getField_spreadOverride_id _ _⟩
      · intro j' hj hnone
        injection hj with hjj
        subst hjj
        rw [hnone] at hv
        simp only [jsOrEmptyArr] at hv
        injection hv with hxs
        rw [← hxs]
        simp
      · intro j' hj hnone
        injection hj with hjj
        subst hjj
        rw [hnone]
        rfl

/-- Witness for C10 at a response whose single action already carries a
foreign id and an `applied` status: both are overwritten. -/
theorem c10_actions_normalised_witness :
    getField (actsW.get ⟨0, by decide⟩) "status" = some (.str "pending") ∧
    getField (actsW.get ⟨0, by decide⟩) "id" = some (.str (idsW 0)) :=
  (c10_actions_normalised idsW bodyW actsW insW rfl).1 0 (by decide)
